import Mathlib

/-!
Verification of the progress-log API (src/main.py) against its
natural-language specification.

The embedding models:
- the pydantic record model `LogEntry` / `LogEntryResponse` (src/main.py:19-31);
- the Firestore document store as an association list from full document
  path strings to records, plus a counter that stands for the generator of
  store-assigned unique document ids;
- the authentication dependency `get_current_user` (src/main.py:92-112),
  with the external token verifier as a function parameter;
- the five route handlers (src/main.py:117-197).

Python string interpolation is modelled by string append, and the Python
`auth_header.split("Bearer ")[1]` by an executable split on the literal
substring "Bearer ".
-/

namespace ProgressLog

/-- The pydantic model `LogEntry` (src/main.py:19-28): four required text
fields, four optional text fields defaulting to absent, and a text `date`
that pydantic fills by a default factory when the caller omits it. -/
structure LogEntry where
  taskDescription : String
  project : String
  status : String
  priority : String
  startTime : Option String
  endTime : Option String
  duration : Option String
  comments : Option String
  date : String
deriving DecidableEq

/-- Validation / defaulting of a request body into a `LogEntry`
(src/main.py:19-28): omitted optional fields become `none`, an omitted
`date` becomes the server-side construction timestamp `now`
(`datetime.now().isoformat()`). -/
def LogEntry.build (taskDescription project status priority : String)
    (startTime endTime duration comments : Option String)
    (date : Option String) (now : String) : LogEntry :=
  ⟨taskDescription, project, status, priority,
   startTime, endTime, duration, comments, date.getD now⟩

/-- The pydantic model `LogEntryResponse` (src/main.py:30-31): a `LogEntry`
plus the server-assigned document `id`. -/
structure LogEntryResponse extends LogEntry where
  id : String
deriving DecidableEq

/-- The fixed application identifier constant `appId = 'default-app-id'`
(src/main.py:127, 144, 165, 187). -/
def appId : String := "default-app-id"

/-- The per-user collection path
`f"artifacts/{appId}/users/{user_id}/progress-logs"`
(src/main.py:128, 145). -/
def collectionPath (userId : String) : String :=
  "artifacts/" ++ appId ++ "/users/" ++ userId ++ "/progress-logs"

/-- The per-document path
`f"artifacts/{appId}/users/{user_id}/progress-logs/{log_id}"`
(src/main.py:166, 188). -/
def docPath (userId logId : String) : String :=
  "artifacts/" ++ appId ++ "/users/" ++ userId ++ "/progress-logs/" ++ logId

/-- Model of the store-generated unique document id produced by
`db.collection(...).document()` (src/main.py:130): the `n`-th id generated
by the store. Firestore auto-ids are opaque, unique, non-empty and contain
no path separator; any injective slash-free generator models this, keyed
here by a per-store counter. -/
def mkDocId (n : Nat) : String :=
  String.mk (List.replicate (n + 1) 'd')

/-- The external Firestore database: a finite map from full document path
strings to stored records, together with the state of the unique-id
generator. -/
structure Store where
  docs : List (String × LogEntry)
  nextId : Nat
deriving DecidableEq

/-- A store holding no documents. -/
def emptyStore : Store := ⟨[], 0⟩

/-- Firestore `doc_ref.get()` at a full document path: the stored record,
if a document exists at that exact path. -/
def lookupDoc : List (String × LogEntry) → String → Option LogEntry
  | [], _ => none
  | d :: ds, p => if d.1 = p then some d.2 else lookupDoc ds p

/-- Firestore `doc_ref.set(...)` / `doc_ref.update(...)` writing every
field of a record at a full document path: overwrite if present, append
otherwise. -/
def setDoc (p : String) (e : LogEntry) : List (String × LogEntry) → List (String × LogEntry)
  | [] => [(p, e)]
  | d :: ds => if d.1 = p then (p, e) :: ds else d :: setDoc p e ds

/-- Firestore `doc_ref.delete()`: remove the document at a full path. -/
def eraseDoc (p : String) : List (String × LogEntry) → List (String × LogEntry)
  | [] => []
  | d :: ds => if d.1 = p then eraseDoc p ds else d :: eraseDoc p ds

/-- Path arithmetic: `dropSeg c p` strips the leading collection path `c`
followed by one `/` from the document path `p`, returning the remainder.
This is how Firestore resolves which documents are direct children of a
collection. -/
def dropSeg : List Char → List Char → Option (List Char)
  | [], [] => none
  | [], b :: bs => if b = '/' then some bs else none
  | _ :: _, [] => none
  | a :: as, b :: bs => if a = b then dropSeg as bs else none

/-- A stored document viewed from a collection query on collection path
`c`: it belongs to the collection when its path is `c`, a slash, and a
single (slash-free) document id; `doc.id` is that final segment
(src/main.py:148-153). -/
def childDoc (c : String) (d : String × LogEntry) : Option LogEntryResponse :=
  match dropSeg c.data d.1.data with
  | some rest => if '/' ∈ rest then none else some ⟨d.2, String.mk rest⟩
  | none => none

/-- All documents of the collection at path `c`, as response records
(`db.collection(c).stream()` plus the response construction of
src/main.py:150-153), in store order. -/
def collDocs (c : String) (docs : List (String × LogEntry)) : List LogEntryResponse :=
  docs.filterMap (childDoc c)

/-- The ordering used by `order_by("date", direction=DESCENDING)`
(src/main.py:148): `a` may come before `b` when the date of `b` is at most
the date of `a` (lexicographic on the date strings). -/
def dateGe (a b : LogEntryResponse) : Prop :=
  b.date ≤ a.date

instance : DecidableRel dateGe :=
  fun a b => inferInstanceAs (Decidable (b.date ≤ a.date))

instance : IsTotal LogEntryResponse dateGe :=
  ⟨fun a b => le_total b.date a.date⟩

instance : IsTrans LogEntryResponse dateGe :=
  ⟨fun _ _ _ hab hbc => le_trans hbc hab⟩

/-- `GET /logs` after authentication (src/main.py:138-157): every document
of the per-user collection, ordered by `date` descending. -/
def getLogs (userId : String) (s : Store) : List LogEntryResponse :=
  List.insertionSort dateGe (collDocs (collectionPath userId) s.docs)

/-- `POST /logs` after authentication (src/main.py:121-136): generate a
fresh document id in the per-user collection, persist every field of the
validated record there, and return the record plus its new id. -/
def createLog (userId : String) (log : LogEntry) (s : Store) : LogEntryResponse × Store :=
  let collection := collectionPath userId
  let docId := mkDocId s.nextId
  (⟨log, docId⟩, ⟨setDoc (collection ++ "/" ++ docId) log s.docs, s.nextId + 1⟩)

/-- An HTTP error response: `HTTPException(status_code, detail)`. -/
structure HttpErr where
  status : Nat
  detail : String
deriving DecidableEq

/-- The error surfaced by `update_log` on a missing document
(src/main.py:169-170, 178-179). The handler raises
`HTTPException(404, "Log not found")` INSIDE its `try` block, and the
blanket `except Exception as e` catches it (fastapi `HTTPException`
subclasses `Exception`) and re-raises
`HTTPException(500, f"Failed to update log: {e}")`, where starlette
renders `str(e)` as `"404: Log not found"`. The caller therefore sees a
500, not the intended 404. -/
def updateMissingErr : HttpErr :=
  ⟨500, "Failed to update log: 404: Log not found"⟩

/-- The error surfaced by `delete_log` on a missing document
(src/main.py:191-192, 196-197); the intended 404 is swallowed by the
blanket `except Exception` exactly as in `update_log`. -/
def deleteMissingErr : HttpErr :=
  ⟨500, "Failed to delete log: 404: Log not found"⟩

/-- `PUT /logs/{log_id}` after authentication (src/main.py:159-179): check
existence at the per-user document path, overwrite every field with the
validated record, re-read, and return the result under the path id. The
inner `none` branch models `to_dict()` returning nothing after the write;
it is unreachable in a sequential store (`lookupDoc_setDoc_self`). -/
def updateLog (userId logId : String) (log : LogEntry) (s : Store) :
    Except HttpErr LogEntryResponse × Store :=
  let p := docPath userId logId
  match lookupDoc s.docs p with
  | none => (Except.error updateMissingErr, s)
  | some _ =>
    let docs := setDoc p log s.docs
    match lookupDoc docs p with
    | some updated => (Except.ok ⟨updated, logId⟩, ⟨docs, s.nextId⟩)
    | none => (Except.error ⟨500, "Failed to update log: document missing after write"⟩,
               ⟨docs, s.nextId⟩)

/-- `DELETE /logs/{log_id}` after authentication (src/main.py:181-197):
check existence at the per-user document path, then remove the document
(204 No Content on success, modelled as `Except.ok ()`). -/
def deleteLog (userId logId : String) (s : Store) : Except HttpErr Unit × Store :=
  let p := docPath userId logId
  match lookupDoc s.docs p with
  | none => (Except.error deleteMissingErr, s)
  | some _ => (Except.ok (), ⟨eraseDoc p s.docs, s.nextId⟩)

/-- Outcome of the external token verifier `auth.verify_id_token`
(src/main.py:107): success with the stable uid, rejection raising
`InvalidIdTokenError` / `ExpiredIdTokenError` with a message, or any other
exception with a message. -/
inductive VerifyOutcome where
  | ok (uid : String)
  | invalid (msg : String)
  | fail (msg : String)
deriving DecidableEq

/-- Python `header.split("Bearer ")` (src/main.py:106): split on each
non-overlapping occurrence of the literal substring `"Bearer "`, scanning
left to right. -/
def bearerSplit : List Char → List (List Char)
  | [] => [[]]
  | 'B' :: 'e' :: 'a' :: 'r' :: 'e' :: 'r' :: ' ' :: rest => [] :: bearerSplit rest
  | c :: cs =>
    match bearerSplit cs with
    | [] => [[c]]
    | h :: t => (c :: h) :: t

/-- `auth_header.split("Bearer ")[1]` (src/main.py:106): `none` models the
`IndexError` raised when the header contains no `"Bearer "` at all. -/
def extractToken (header : String) : Option String :=
  ((bearerSplit header.data)[1]?).map String.mk

/-- The dependency `get_current_user` (src/main.py:92-112): fail 500 when
the Firebase connection is unavailable, 401 when the `Authorization`
header is absent, 401 with the `IndexError` text when the header holds no
`"Bearer "` segment, then delegate to the external verifier: 401 on an
invalid or expired token, 500 on any other verifier failure, and the
stable uid on success. -/
def getCurrentUser (dbReady : Bool) (authHeader : Option String)
    (verify : String → VerifyOutcome) : Except HttpErr String :=
  if dbReady = false then
    Except.error ⟨500, "Firebase connection not available."⟩
  else
    match authHeader with
    | none => Except.error ⟨401, "Authorization header missing"⟩
    | some header =>
      match extractToken header with
      | none =>
        Except.error ⟨401, "Invalid or expired authentication token: list index out of range"⟩
      | some tok =>
        match verify tok with
        | VerifyOutcome.ok uid => Except.ok uid
        | VerifyOutcome.invalid msg =>
          Except.error ⟨401, "Invalid or expired authentication token: " ++ msg⟩
        | VerifyOutcome.fail msg =>
          Except.error ⟨500, "An error occurred during token verification: " ++ msg⟩

/-- The route `POST /logs` (src/main.py:121-136): run the authentication
dependency, surface its error untouched, otherwise create for the
verified uid. -/
def handleCreateLog (dbReady : Bool) (authHeader : Option String)
    (verify : String → VerifyOutcome) (log : LogEntry) (s : Store) :
    Except HttpErr LogEntryResponse × Store :=
  match getCurrentUser dbReady authHeader verify with
  | Except.error err => (Except.error err, s)
  | Except.ok uid =>
    let r := createLog uid log s
    (Except.ok r.1, r.2)

/-- The route `GET /logs` (src/main.py:138-157). -/
def handleGetLogs (dbReady : Bool) (authHeader : Option String)
    (verify : String → VerifyOutcome) (s : Store) :
    Except HttpErr (List LogEntryResponse) × Store :=
  match getCurrentUser dbReady authHeader verify with
  | Except.error err => (Except.error err, s)
  | Except.ok uid => (Except.ok (getLogs uid s), s)

/-- The route `PUT /logs/{log_id}` (src/main.py:159-179). -/
def handleUpdateLog (dbReady : Bool) (authHeader : Option String)
    (verify : String → VerifyOutcome) (logId : String) (log : LogEntry) (s : Store) :
    Except HttpErr LogEntryResponse × Store :=
  match getCurrentUser dbReady authHeader verify with
  | Except.error err => (Except.error err, s)
  | Except.ok uid => updateLog uid logId log s

/-- The route `DELETE /logs/{log_id}` (src/main.py:181-197). -/
def handleDeleteLog (dbReady : Bool) (authHeader : Option String)
    (verify : String → VerifyOutcome) (logId : String) (s : Store) :
    Except HttpErr Unit × Store :=
  match getCurrentUser dbReady authHeader verify with
  | Except.error err => (Except.error err, s)
  | Except.ok uid => deleteLog uid logId s

/-- The response body of `GET /` (src/main.py:117-119). -/
structure RootMsg where
  message : String
deriving DecidableEq

/-- `read_root` (src/main.py:117-119): the static welcome payload. -/
def readRoot : RootMsg :=
  ⟨"Welcome to the Daily Progress Log API!"⟩

/-- The route `GET /` (src/main.py:117-119): no authentication dependency,
no storage access, fastapi default status 200. -/
def handleRoot (_authHeader : Option String) (s : Store) : (Nat × RootMsg) × Store :=
  ((200, readRoot), s)

/-- Well-formedness of a store with respect to the unique-id generator:
every document sitting at a path the store generator could produce was
generated by a strictly earlier state of the counter. `emptyStore`
satisfies it, and every generated id is then fresh for its collection. -/
def WF (s : Store) : Prop :=
  ∀ d ∈ s.docs, ∀ u n, d.1 = docPath u (mkDocId n) → n < s.nextId

/-- A concrete valid record used to instantiate theorems with hypotheses
at explicit inputs. -/
def sampleEntry : LogEntry :=
  ⟨"Write spec", "Docs", "done", "high", none, none, none, none, "2024-01-01T00:00:00"⟩

/-- A concrete verifier that rejects every token with the same message
text that the Python `IndexError` renders to. -/
def rejectingVerifier : String → VerifyOutcome :=
  fun _ => VerifyOutcome.invalid "list index out of range"

/-- A concrete verifier that accepts every token as the fixed user u1. -/
def acceptingVerifier : String → VerifyOutcome :=
  fun _ => VerifyOutcome.ok "u1"

/-- A second concrete valid record, distinct from `sampleEntry` in every
field that differs, used to exercise full-overwrite behaviour. -/
def sampleEntry2 : LogEntry :=
  ⟨"Review PR", "Docs", "in-progress", "low",
   some "09:00", none, none, some "second pass", "2024-01-02T00:00:00"⟩

/-- A concrete store holding exactly one document for user u1, at the
first store-generated id. -/
def oneDocStore : Store :=
  ⟨[(docPath "u1" (mkDocId 0), sampleEntry)], 1⟩

/-! ## Auxiliary lemmas about paths and strings -/

/-- The document path is the collection path, a separator, and the id. -/
theorem docPath_eq (u l : String) : docPath u l = collectionPath u ++ "/" ++ l := by
  have h : ("/progress-logs/" : String) = "/progress-logs" ++ "/" := rfl
  simp only [docPath, collectionPath, h, String.append_assoc]

/-- Data-level form of `docPath_eq`. -/
theorem docPath_data (u l : String) :
    (docPath u l).data = (collectionPath u).data ++ '/' :: l.data := by
  rw [docPath_eq]
  have h : ("/" : String).data = ['/'] := rfl
  simp [String.data_append, h]

/-- Distinct user identifiers give distinct collection paths: the path is
a fixed prefix, the user id, and a fixed suffix, and string append
cancels on both sides. -/
theorem collectionPath_inj {u1 u2 : String}
    (h : collectionPath u1 = collectionPath u2) : u1 = u2 := by
  have hd := congrArg String.data h
  simp only [collectionPath, String.data_append, List.append_assoc] at hd
  apply String.ext
  exact List.append_cancel_right
    (List.append_cancel_left (List.append_cancel_left (List.append_cancel_left hd)))

/-- Store-generated document ids are injective in the generator state. -/
theorem mkDocId_inj {m n : Nat} (h : mkDocId m = mkDocId n) : m = n := by
  have hd : List.replicate (m + 1) 'd' = List.replicate (n + 1) 'd' :=
    congrArg String.data h
  have hl := congrArg List.length hd
  simp only [List.length_replicate] at hl
  omega

/-- Store-generated document ids contain no path separator. -/
theorem mkDocId_no_slash (n : Nat) : '/' ∉ (mkDocId n).data := by
  intro hmem
  have hc : '/' = 'd' := List.eq_of_mem_replicate hmem
  exact absurd hc (by decide)

/-- Stripping a known collection path from one of its child paths. -/
theorem dropSeg_append : ∀ (c rest : List Char), dropSeg c (c ++ '/' :: rest) = some rest := by
  intro c rest
  induction c with
  | nil => simp [dropSeg]
  | cons a as ih => simpa [dropSeg] using ih

/-- `dropSeg` only succeeds on genuine child paths. -/
theorem dropSeg_sound : ∀ (c p rest : List Char), dropSeg c p = some rest → p = c ++ '/' :: rest := by
  intro c
  induction c with
  | nil =>
    intro p rest h
    cases p with
    | nil => simp [dropSeg] at h
    | cons b bs =>
      by_cases hb : b = '/'
      · subst hb
        simp [dropSeg] at h
        simp [h]
      · simp [dropSeg, hb] at h
  | cons a as ih =>
    intro p rest h
    cases p with
    | nil => simp [dropSeg] at h
    | cons b bs =>
      by_cases hab : a = b
      · subst hab
        simp only [dropSeg, if_pos rfl] at h
        simp [ih bs rest h]
      · simp [dropSeg, hab] at h

/-- A path splits in at most one way into a collection path followed by a
slash-free final segment. -/
theorem lastSeg_unique : ∀ (a b x y : List Char), '/' ∉ x → '/' ∉ y →
    a ++ '/' :: x = b ++ '/' :: y → a = b ∧ x = y := by
  intro a
  induction a with
  | nil =>
    intro b x y hx hy h
    cases b with
    | nil =>
      simp only [List.nil_append, List.cons.injEq, true_and] at h
      exact ⟨rfl, h⟩
    | cons c bs =>
      simp only [List.nil_append, List.cons_append, List.cons.injEq] at h
      have hmem : '/' ∈ bs ++ '/' :: y :=
        List.mem_append.mpr (Or.inr (List.mem_cons_self _ _))
      exact absurd (by rw [h.2]; exact hmem) hx
  | cons c as ih =>
    intro b x y hx hy h
    cases b with
    | nil =>
      simp only [List.nil_append, List.cons_append, List.cons.injEq] at h
      have hmem : '/' ∈ as ++ '/' :: x :=
        List.mem_append.mpr (Or.inr (List.mem_cons_self _ _))
      exact absurd (by rw [← h.2]; exact hmem) hy
    | cons d bs =>
      simp only [List.cons_append, List.cons.injEq] at h
      obtain ⟨hab, hxy⟩ := ih bs x y hx hy h.2
      exact ⟨by rw [h.1, hab], hxy⟩

/-! ## Auxiliary lemmas about collection queries -/

/-- A document whose path is the collection path plus a slash-free segment
is reported by the collection query, with that segment as its id. -/
theorem childDoc_of_data {c p : String} {rest : List Char} (e : LogEntry)
    (hp : p.data = c.data ++ '/' :: rest) (hr : '/' ∉ rest) :
    childDoc c (p, e) = some ⟨e, String.mk rest⟩ := by
  simp [childDoc, hp, dropSeg_append, hr]

/-- Soundness of the collection query: every reported document sits at the
collection path plus a slash-free segment, which is its reported id. -/
theorem childDoc_eq_some {c p : String} {e : LogEntry} {r : LogEntryResponse}
    (h : childDoc c (p, e) = some r) :
    ∃ rest, '/' ∉ rest ∧ p.data = c.data ++ '/' :: rest ∧ r = ⟨e, String.mk rest⟩ := by
  cases hds : dropSeg c.data p.data with
  | none => simp [childDoc, hds] at h
  | some rest =>
    by_cases hr : '/' ∈ rest
    · simp [childDoc, hds, hr] at h
    · simp only [childDoc, hds, if_neg hr, Option.some.injEq] at h
      exact ⟨rest, hr, dropSeg_sound _ _ _ hds, h.symm⟩

/-- The document freshly written to the collection of user `u` is reported
by the collection query of user `u` under its generated id. -/
theorem childDoc_self {u i : String} (hi : '/' ∉ i.data) (e : LogEntry) :
    childDoc (collectionPath u) (docPath u i, e) = some ⟨e, i⟩ := by
  have h := childDoc_of_data (c := collectionPath u) e (docPath_data u i) hi
  rwa [show String.mk i.data = i from rfl] at h

/-- A document of the collection of user `a` is invisible to the
collection query of any other user `b`. -/
theorem childDoc_none_of_ne {a b i : String} (hab : a ≠ b) (hi : '/' ∉ i.data)
    (e : LogEntry) : childDoc (collectionPath b) (docPath a i, e) = none := by
  cases hcd : childDoc (collectionPath b) (docPath a i, e) with
  | none => rfl
  | some r =>
    obtain ⟨rest, hr, hp, _⟩ := childDoc_eq_some hcd
    have hpa : (docPath a i).data = (collectionPath a).data ++ '/' :: i.data :=
      docPath_data a i
    have hsplit := lastSeg_unique _ _ _ _ hr hi (hp.symm.trans hpa)
    exact absurd (collectionPath_inj (String.ext hsplit.1)).symm hab

/-- The collection query distributes over append of the backing list. -/
theorem collDocs_append (c : String) (l1 l2 : List (String × LogEntry)) :
    collDocs c (l1 ++ l2) = collDocs c l1 ++ collDocs c l2 :=
  List.filterMap_append l1 l2 _

/-! ## Auxiliary lemmas about the document map -/

/-- Reading back a freshly written document yields the written record. -/
theorem lookupDoc_setDoc_self (p : String) (e : LogEntry) :
    ∀ docs, lookupDoc (setDoc p e docs) p = some e := by
  intro docs
  induction docs with
  | nil => simp [setDoc, lookupDoc]
  | cons d ds ih =>
    by_cases h : d.1 = p
    · simp [setDoc, h, lookupDoc]
    · simp [setDoc, h, lookupDoc, ih]

/-- Writing at a path absent from the map appends the new document. -/
theorem setDoc_append_of_ne (p : String) (e : LogEntry) :
    ∀ docs, (∀ d ∈ docs, d.1 ≠ p) → setDoc p e docs = docs ++ [(p, e)] := by
  intro docs
  induction docs with
  | nil => intro _; rfl
  | cons d ds ih =>
    intro h
    have hd : d.1 ≠ p := h d (List.mem_cons_self _ _)
    simp only [setDoc, if_neg hd, List.cons_append, List.cons.injEq, true_and]
    exact ih (fun x hx => h x (List.mem_cons_of_mem _ hx))

/-- Writing the same record at the same path twice equals writing once. -/
theorem setDoc_idem (p : String) (e : LogEntry) :
    ∀ docs, setDoc p e (setDoc p e docs) = setDoc p e docs := by
  intro docs
  induction docs with
  | nil => simp [setDoc]
  | cons d ds ih =>
    by_cases h : d.1 = p
    · simp [setDoc, h]
    · simp [setDoc, h, ih]

/-- After erasing a path, no document remains at it. -/
theorem lookupDoc_eraseDoc_self (p : String) :
    ∀ docs, lookupDoc (eraseDoc p docs) p = none := by
  intro docs
  induction docs with
  | nil => rfl
  | cons d ds ih =>
    by_cases h : d.1 = p
    · simp [eraseDoc, h, ih]
    · simp [eraseDoc, h, lookupDoc, ih]

/-- A lookup misses exactly when no document sits at the path. -/
theorem lookupDoc_eq_none_iff (p : String) :
    ∀ docs, (lookupDoc docs p = none ↔ ∀ d ∈ docs, d.1 ≠ p) := by
  intro docs
  induction docs with
  | nil => simp [lookupDoc]
  | cons d ds ih =>
    by_cases h : d.1 = p
    · simp [lookupDoc, h]
    · simp [lookupDoc, h, ih]

/-! ## Auxiliary lemmas about well-formed stores -/

/-- In a well-formed store the next generated id is fresh: no document of
any user sits at the path the generator is about to hand out. -/
theorem WF_fresh_path {s : Store} (hwf : WF s) (u : String) :
    ∀ d ∈ s.docs, d.1 ≠ docPath u (mkDocId s.nextId) := by
  intro d hd heq
  exact absurd (hwf d hd u s.nextId heq) (Nat.lt_irrefl _)

/-- In a well-formed store the freshly generated id is absent from every
collection query: no reported document carries it. -/
theorem fresh_not_mem_collDocs {s : Store} (hwf : WF s) (u : String) (e : LogEntry) :
    (⟨e, mkDocId s.nextId⟩ : LogEntryResponse) ∉ collDocs (collectionPath u) s.docs := by
  intro hmem
  rw [collDocs, List.mem_filterMap] at hmem
  obtain ⟨d, hd, hcd⟩ := hmem
  obtain ⟨rest, _, hp, hre⟩ := childDoc_eq_some hcd
  have hid : mkDocId s.nextId = String.mk rest := congrArg LogEntryResponse.id hre
  have hrest : (mkDocId s.nextId).data = rest := congrArg String.data hid
  have hpath : d.1 = docPath u (mkDocId s.nextId) := by
    apply String.ext
    rw [docPath_data, hrest]
    exact hp
  exact absurd (hwf d hd u s.nextId hpath) (Nat.lt_irrefl _)

/-- Writing at a path invisible to a collection leaves that collection
query unchanged, whether the write overwrote or appended. -/
theorem collDocs_setDoc_of_none {c p : String} {e : LogEntry}
    (hc : ∀ e2 : LogEntry, childDoc c (p, e2) = none) :
    ∀ docs, collDocs c (setDoc p e docs) = collDocs c docs := by
  intro docs
  induction docs with
  | nil => simp [setDoc, collDocs, hc e]
  | cons d ds ih =>
    by_cases h : d.1 = p
    · have hd2 : childDoc c d = none := by
        have hde : d = (p, d.2) := by rw [← h]
        rw [hde]
        exact hc d.2
      simp [setDoc, h, collDocs, List.filterMap_cons, hc e, hd2]
    · cases hcd : childDoc c d with
      | none => simpa [setDoc, h, collDocs, List.filterMap_cons, hcd] using ih
      | some r => simpa [setDoc, h, collDocs, List.filterMap_cons, hcd] using ih

/-! ## Auxiliary lemmas about sorting -/

/-- Inserting into a list whose last element already relates to the new
element keeps that element last. -/
theorem orderedInsert_append_last {α : Type} (r : α → α → Prop) [DecidableRel r]
    (x a : α) (h : r x a) :
    ∀ m : List α, List.orderedInsert r x (m ++ [a]) = List.orderedInsert r x m ++ [a] := by
  intro m
  induction m with
  | nil => simp [List.orderedInsert, h]
  | cons y m ih =>
    by_cases hxy : r x y
    · simp [List.orderedInsert, hxy]
    · simp [List.orderedInsert, hxy, ih]

/-- Sorting a list with one element appended that every other element
relates to places that element last. -/
theorem insertionSort_append_last {α : Type} (r : α → α → Prop) [DecidableRel r] (a : α) :
    ∀ l : List α, (∀ x ∈ l, r x a) →
      List.insertionSort r (l ++ [a]) = List.insertionSort r l ++ [a] := by
  intro l
  induction l with
  | nil => intro _; simp [List.insertionSort, List.orderedInsert]
  | cons x l ih =>
    intro h
    simp only [List.cons_append, List.insertionSort, List.append_eq]
    rw [ih (fun y hy => h y (List.mem_cons_of_mem _ hy))]
    exact orderedInsert_append_last r x a (h x (List.mem_cons_self _ _)) _

/-! ## Characterizations of update and delete -/

/-- `update_log` on an existing document: full overwrite, the re-read
returns the submitted record, and the counter is untouched. -/
theorem updateLog_eq_some {u i : String} {e old : LogEntry} {s : Store}
    (h : lookupDoc s.docs (docPath u i) = some old) :
    updateLog u i e s
      = (Except.ok ⟨e, i⟩, ⟨setDoc (docPath u i) e s.docs, s.nextId⟩) := by
  simp only [updateLog, h, lookupDoc_setDoc_self]

/-- `update_log` on a missing document: the 404 is swallowed into the 500
of the blanket exception handler and the store is untouched. -/
theorem updateLog_eq_none {u i : String} {e : LogEntry} {s : Store}
    (h : lookupDoc s.docs (docPath u i) = none) :
    updateLog u i e s = (Except.error updateMissingErr, s) := by
  simp only [updateLog, h]

/-- `delete_log` on an existing document removes it, leaving the counter
untouched. -/
theorem deleteLog_eq_some {u i : String} {old : LogEntry} {s : Store}
    (h : lookupDoc s.docs (docPath u i) = some old) :
    deleteLog u i s = (Except.ok (), ⟨eraseDoc (docPath u i) s.docs, s.nextId⟩) := by
  simp only [deleteLog, h]

/-- `delete_log` on a missing document: the 404 is swallowed into the 500
of the blanket exception handler and the store is untouched. -/
theorem deleteLog_eq_none {u i : String} {s : Store}
    (h : lookupDoc s.docs (docPath u i) = none) :
    deleteLog u i s = (Except.error deleteMissingErr, s) := by
  simp only [deleteLog, h]

/-- Creating into a well-formed store appends one document at the freshly
generated path of the creating user. -/
theorem createLog_docs_eq {s : Store} (hwf : WF s) (u : String) (e : LogEntry) :
    (createLog u e s).2.docs
      = s.docs ++ [(collectionPath u ++ "/" ++ mkDocId s.nextId, e)] := by
  simp only [createLog]
  apply setDoc_append_of_ne
  intro d hd
  rw [← docPath_eq]
  exact WF_fresh_path hwf u d hd

/-- After a create, the collection query of the creating user reports the
old documents plus the new record under its generated id. -/
theorem collDocs_createLog {s : Store} (hwf : WF s) (u : String) (e : LogEntry) :
    collDocs (collectionPath u) (createLog u e s).2.docs
      = collDocs (collectionPath u) s.docs ++ [⟨e, mkDocId s.nextId⟩] := by
  rw [createLog_docs_eq hwf u e, collDocs_append]
  have h := childDoc_self (u := u) (mkDocId_no_slash s.nextId) e
  rw [docPath_eq] at h
  simp [collDocs, List.filterMap_cons, h]

/-! ## The claims -/

/-- Claim C1: per-user isolation. For distinct authenticated users `a` and
`b`, a record created for `a` never appears in the listing of `b`: the
listing of `b` is unchanged by the create, and the created response is not
contained in it, because the storage path is derived from the fixed
application identifier and the verified user id only. -/
theorem claim_C1 (a b : String) (e : LogEntry) (s : Store)
    (hab : a ≠ b) (hwf : WF s) :
    getLogs b (createLog a e s).2 = getLogs b s
    ∧ (createLog a e s).1 ∉ getLogs b (createLog a e s).2 := by
  have hnone : ∀ e2 : LogEntry,
      childDoc (collectionPath b) (collectionPath a ++ "/" ++ mkDocId s.nextId, e2) = none := by
    intro e2
    rw [← docPath_eq]
    exact childDoc_none_of_ne hab (mkDocId_no_slash s.nextId) e2
  have heq : getLogs b (createLog a e s).2 = getLogs b s := by
    simp only [createLog, getLogs]
    rw [collDocs_setDoc_of_none hnone]
  refine ⟨heq, ?_⟩
  rw [heq]
  show (⟨e, mkDocId s.nextId⟩ : LogEntryResponse) ∉ getLogs b s
  intro hmem
  simp only [getLogs] at hmem
  rw [(List.perm_insertionSort dateGe _).mem_iff] at hmem
  exact fresh_not_mem_collDocs hwf b e hmem

/-- Witness for claim C1 at users alice and bob over the empty store. -/
theorem claim_C1_witness :
    ("alice" : String) ≠ "bob" ∧ WF emptyStore
    ∧ (getLogs "bob" (createLog "alice" sampleEntry emptyStore).2 = getLogs "bob" emptyStore
       ∧ (createLog "alice" sampleEntry emptyStore).1
         ∉ getLogs "bob" (createLog "alice" sampleEntry emptyStore).2) := by
  have hwf : WF emptyStore := fun d hd => nomatch hd
  exact ⟨by decide, hwf, claim_C1 "alice" "bob" sampleEntry emptyStore (by decide) hwf⟩

/-- Claim C2 (code bug): the spec says update and delete on a missing id
fail with a 404-equivalent NotFound. The code raises the intended
`HTTPException(404, "Log not found")` inside the `try` block, where the
blanket `except Exception` catches it and re-raises a 500 whose detail
embeds the swallowed 404. Evaluated at a concrete missing id (also after a
successful delete of that very id), the surfaced outcome is the 500. -/
theorem claim_C2 :
    updateLog "u1" (mkDocId 0) sampleEntry2 emptyStore
      = (Except.error updateMissingErr, emptyStore)
    ∧ updateMissingErr = ⟨500, "Failed to update log: 404: Log not found"⟩
    ∧ deleteLog "u1" (mkDocId 0) emptyStore
      = (Except.error deleteMissingErr, emptyStore)
    ∧ deleteMissingErr = ⟨500, "Failed to delete log: 404: Log not found"⟩
    ∧ (deleteLog "u1" (mkDocId 0) (createLog "u1" sampleEntry emptyStore).2).1
      = Except.ok ()
    ∧ (updateLog "u1" (mkDocId 0) sampleEntry2
        (deleteLog "u1" (mkDocId 0) (createLog "u1" sampleEntry emptyStore).2).2).1
      = Except.error updateMissingErr
    ∧ (deleteLog "u1" (mkDocId 0)
        (deleteLog "u1" (mkDocId 0) (createLog "u1" sampleEntry emptyStore).2).2).1
      = Except.error deleteMissingErr :=
  ⟨rfl, rfl, rfl, rfl, rfl, rfl, rfl⟩

/-- Claim C3: update on an existing document is a full overwrite. The
stored document becomes exactly the submitted (validated) record, the
response carries it under the path id, and the LogEntry defaulting rules
turn omitted optional fields into `none` and an omitted date into the
server timestamp before storage. -/
theorem claim_C3 (u i : String) (e old : LogEntry) (s : Store)
    (h : lookupDoc s.docs (docPath u i) = some old) :
    updateLog u i e s
      = (Except.ok ⟨e, i⟩, ⟨setDoc (docPath u i) e s.docs, s.nextId⟩)
    ∧ lookupDoc (updateLog u i e s).2.docs (docPath u i) = some e
    ∧ (∀ td pj st pr now, LogEntry.build td pj st pr none none none none none now
        = ⟨td, pj, st, pr, none, none, none, none, now⟩) := by
  refine ⟨updateLog_eq_some h, ?_, fun _ _ _ _ _ => rfl⟩
  rw [updateLog_eq_some h]
  exact lookupDoc_setDoc_self _ _ _

/-- Witness for claim C3 at a store holding one document for user u1,
overwritten with a record differing in every changed field. -/
theorem claim_C3_witness :
    lookupDoc oneDocStore.docs (docPath "u1" (mkDocId 0)) = some sampleEntry
    ∧ (updateLog "u1" (mkDocId 0) sampleEntry2 oneDocStore
        = (Except.ok ⟨sampleEntry2, mkDocId 0⟩,
           ⟨setDoc (docPath "u1" (mkDocId 0)) sampleEntry2 oneDocStore.docs,
            oneDocStore.nextId⟩)
       ∧ lookupDoc (updateLog "u1" (mkDocId 0) sampleEntry2 oneDocStore).2.docs
           (docPath "u1" (mkDocId 0)) = some sampleEntry2
       ∧ (∀ td pj st pr now, LogEntry.build td pj st pr none none none none none now
           = ⟨td, pj, st, pr, none, none, none, none, now⟩)) :=
  ⟨rfl, claim_C3 "u1" (mkDocId 0) sampleEntry2 sampleEntry oneDocStore rfl⟩

/-- Claim C4 (amended): a request to any of the four /logs routes without
an Authorization header fails with 401 "Authorization header missing" and
neither reads nor writes storage (the store passes through unchanged and
the response is the same for every store) — provided the Firebase
connection initialized; when it did not, the same requests fail with the
500 "Firebase connection not available." outcome first, likewise touching
no storage. -/
theorem claim_C4 (verify : String → VerifyOutcome) (logId : String)
    (e : LogEntry) (s : Store) :
    (handleCreateLog true none verify e s
        = (Except.error ⟨401, "Authorization header missing"⟩, s)
      ∧ handleGetLogs true none verify s
        = (Except.error ⟨401, "Authorization header missing"⟩, s)
      ∧ handleUpdateLog true none verify logId e s
        = (Except.error ⟨401, "Authorization header missing"⟩, s)
      ∧ handleDeleteLog true none verify logId s
        = (Except.error ⟨401, "Authorization header missing"⟩, s))
    ∧ (handleCreateLog false none verify e s
        = (Except.error ⟨500, "Firebase connection not available."⟩, s)
      ∧ handleGetLogs false none verify s
        = (Except.error ⟨500, "Firebase connection not available."⟩, s)
      ∧ handleUpdateLog false none verify logId e s
        = (Except.error ⟨500, "Firebase connection not available."⟩, s)
      ∧ handleDeleteLog false none verify logId s
        = (Except.error ⟨500, "Firebase connection not available."⟩, s)) :=
  ⟨⟨rfl, rfl, rfl, rfl⟩, ⟨rfl, rfl, rfl, rfl⟩⟩

/-- Counterexample to claim C4 as stated: with the Firebase connection
uninitialized (src/main.py:97-98 precedes the header check), a header-less
request fails with the 500 "Firebase connection not available." outcome,
which is not the claimed 401 Unauthenticated outcome. -/
theorem claim_C4_counterexample :
    handleGetLogs false none rejectingVerifier emptyStore
      = (Except.error ⟨500, "Firebase connection not available."⟩, emptyStore)
    ∧ (⟨500, "Firebase connection not available."⟩ : HttpErr)
      ≠ ⟨401, "Authorization header missing"⟩ :=
  ⟨rfl, by decide⟩

/-- Claim C5: create followed by listAll for the same user yields a
sequence containing exactly one entry equal to the created entry, carrying
the store-assigned id returned by create, with all fields preserved. -/
theorem claim_C5 (u : String) (e : LogEntry) (s : Store) (hwf : WF s) :
    (createLog u e s).1 = ⟨e, mkDocId s.nextId⟩
    ∧ (getLogs u (createLog u e s).2).count ⟨e, mkDocId s.nextId⟩ = 1 := by
  refine ⟨rfl, ?_⟩
  simp only [getLogs]
  rw [(List.perm_insertionSort dateGe _).count_eq]
  rw [collDocs_createLog hwf u e, List.count_append]
  have h0 : (collDocs (collectionPath u) s.docs).count ⟨e, mkDocId s.nextId⟩ = 0 :=
    List.count_eq_zero.mpr (fresh_not_mem_collDocs hwf u e)
  rw [h0]
  simp

/-- Witness for claim C5 for user u1 over the empty store. -/
theorem claim_C5_witness :
    WF emptyStore
    ∧ ((createLog "u1" sampleEntry emptyStore).1 = ⟨sampleEntry, mkDocId emptyStore.nextId⟩
       ∧ (getLogs "u1" (createLog "u1" sampleEntry emptyStore).2).count
           ⟨sampleEntry, mkDocId emptyStore.nextId⟩ = 1) := by
  have hwf : WF emptyStore := fun d hd => nomatch hd
  exact ⟨hwf, claim_C5 "u1" sampleEntry emptyStore hwf⟩

/-- Claim C6: listAll returns the per-user documents sorted by date
descending; creating an entry whose date is strictly earlier than every
listed entry appends it at the end of the listing; and an empty namespace
yields the empty sequence, never an error. -/
theorem claim_C6 (u : String) (e : LogEntry) (s : Store) (hwf : WF s) :
    List.Sorted dateGe (getLogs u s)
    ∧ ((∀ r ∈ getLogs u s, e.date < r.date) →
        getLogs u (createLog u e s).2 = getLogs u s ++ [⟨e, mkDocId s.nextId⟩])
    ∧ (collDocs (collectionPath u) s.docs = [] → getLogs u s = []) := by
  refine ⟨List.sorted_insertionSort dateGe _, ?_, ?_⟩
  · intro hlt
    simp only [getLogs]
    rw [collDocs_createLog hwf u e]
    apply insertionSort_append_last
    intro x hx
    have hx2 : x ∈ getLogs u s := by
      simp only [getLogs]
      rw [(List.perm_insertionSort dateGe _).mem_iff]
      exact hx
    exact le_of_lt (hlt x hx2)
  · intro h0
    simp only [getLogs, h0]
    rfl

/-- Witness for claim C6 for user u1 over the empty store. -/
theorem claim_C6_witness :
    WF emptyStore
    ∧ (List.Sorted dateGe (getLogs "u1" emptyStore)
       ∧ ((∀ r ∈ getLogs "u1" emptyStore, sampleEntry.date < r.date) →
           getLogs "u1" (createLog "u1" sampleEntry emptyStore).2
             = getLogs "u1" emptyStore ++ [⟨sampleEntry, mkDocId emptyStore.nextId⟩])
       ∧ (collDocs (collectionPath "u1") emptyStore.docs = []
           → getLogs "u1" emptyStore = [])) := by
  have hwf : WF emptyStore := fun d hd => nomatch hd
  exact ⟨hwf, claim_C6 "u1" sampleEntry emptyStore hwf⟩

/-- Claim C7: update is idempotent. Applying the same replacement record
twice in succession yields the same stored state as applying it once
(whether or not the target document exists). -/
theorem claim_C7 (u i : String) (e : LogEntry) (s : Store) :
    (updateLog u i e (updateLog u i e s).2).2 = (updateLog u i e s).2 := by
  cases h : lookupDoc s.docs (docPath u i) with
  | none => simp [updateLog_eq_none h]
  | some old =>
    have h2 : lookupDoc (setDoc (docPath u i) e s.docs) (docPath u i) = some e :=
      lookupDoc_setDoc_self _ _ _
    simp [updateLog_eq_some h,
      updateLog_eq_some (s := ⟨setDoc (docPath u i) e s.docs, s.nextId⟩) h2,
      setDoc_idem]

/-- Claim C8 (amended): an Authorization header holding no "Bearer "
segment makes the request fail 401, but through the same
"Invalid or expired authentication token" outcome used for
verifier-rejected tokens (with the Python IndexError text appended), not
through a distinct malformed-credential outcome. -/
theorem claim_C8 (header : String) (verify : String → VerifyOutcome)
    (hm : (bearerSplit header.data)[1]? = none) :
    getCurrentUser true (some header) verify
      = Except.error ⟨401, "Invalid or expired authentication token: list index out of range"⟩ := by
  simp [getCurrentUser, extractToken, hm]

/-- Witness for claim C8 at the malformed header "Basic abc"; the verifier
is never consulted. -/
theorem claim_C8_witness :
    (bearerSplit ("Basic abc" : String).data)[1]? = none
    ∧ getCurrentUser true (some "Basic abc") acceptingVerifier
      = Except.error ⟨401, "Invalid or expired authentication token: list index out of range"⟩ :=
  ⟨rfl, claim_C8 "Basic abc" acceptingVerifier rfl⟩

/-- Counterexample to claim C8 as stated: the outcome of a malformed
header is byte-for-byte the outcome of a verifier-rejected token whose
message is the IndexError text, so the two are not distinguishable and no
distinct malformed-credential outcome exists. -/
theorem claim_C8_counterexample :
    getCurrentUser true (some "Basic abc") rejectingVerifier
      = Except.error ⟨401, "Invalid or expired authentication token: list index out of range"⟩
    ∧ getCurrentUser true (some "Bearer tok") rejectingVerifier
      = Except.error ⟨401, "Invalid or expired authentication token: list index out of range"⟩ :=
  ⟨rfl, rfl⟩

/-- Claim C9: GET / returns exactly the static welcome payload with
status 200, for every (even absent) Authorization header and every store,
consulting neither the verifier nor storage. -/
theorem claim_C9 (authHeader : Option String) (s : Store) :
    handleRoot authHeader s = ((200, ⟨"Welcome to the Daily Progress Log API!"⟩), s)
    ∧ readRoot = ⟨"Welcome to the Daily Progress Log API!"⟩ :=
  ⟨rfl, rfl⟩

/-- Claim C10: failing mutations are atomic. When no document sits at the
addressed per-user path, update and delete leave the store exactly as it
was: the existence check precedes any write. -/
theorem claim_C10 (u i : String) (e : LogEntry) (s : Store)
    (h : lookupDoc s.docs (docPath u i) = none) :
    (updateLog u i e s).2 = s ∧ (deleteLog u i s).2 = s := by
  rw [updateLog_eq_none h, deleteLog_eq_none h]
  exact ⟨rfl, rfl⟩

/-- Witness for claim C10 at a concrete missing id over the empty store. -/
theorem claim_C10_witness :
    lookupDoc emptyStore.docs (docPath "u1" (mkDocId 0)) = none
    ∧ ((updateLog "u1" (mkDocId 0) sampleEntry emptyStore).2 = emptyStore
       ∧ (deleteLog "u1" (mkDocId 0) emptyStore).2 = emptyStore) :=
  ⟨rfl, claim_C10 "u1" (mkDocId 0) sampleEntry emptyStore rfl⟩

end ProgressLog
